import Mathlib

/-!
Verification of the priority-fee subscriber map
(`src/sdk/src/priority_fee/priority_fee_subscriber_map.rs`).

The Rust HashMaps are embedded as functions into `Option` (extensional finite
maps); the async mutex-guarded methods become pure state transformers, with the
external collaborator `fetch_drift_priority_fee` passed in as a function
parameter and its outcome inspected explicitly.  An abort of the process
(a failed `unwrap`) is a distinguished result constructor.
-/

set_option maxHeartbeats 1000000

/-- Extensional finite map standing in for Rust's `HashMap`. -/
abbrev HMap (α β : Type) := α → Option β

/-- Models `HashMap::new()`. -/
def HMap.empty {α β : Type} : HMap α β := fun _ => none

/-- Models `HashMap::insert` (overwrite the value stored at `k`). -/
def HMap.insert {α β : Type} [DecidableEq α] (m : HMap α β) (k : α) (v : β) : HMap α β :=
  fun k' => if k' = k then some v else m k'

/-- Modelled from the spec: the per-market fee record returned by the remote
service (`DriftPriorityFeeLevels` lives in `drift_priority_fee_method.rs`,
which is not under `src/`).  The subscriber-map source reads its
`market_type` and `market_index` fields; the named level fields
(spec §3 "FeeLevels", §8.6 `median`) are the opaque payload. -/
structure DriftPriorityFeeLevels where
  market_type : String
  market_index : Nat
  low : Nat
  median : Nat
  high : Nat
deriving DecidableEq, Repr

/-- Modelled from the spec: a `(category, index)` pair of the watch list
(`DriftMarketInfo` lives in `drift_priority_fee_method.rs`, not under `src/`).
Its index is a `u16` in the source; values produced by `load` are reduced
mod `2 ^ 16`. -/
structure DriftMarketInfo where
  market_type : String
  market_index : Nat
deriving DecidableEq, Repr

/-- Modelled from the spec: the fetch response, a tuple struct wrapping a
vector of fee records; `entries` models the Rust field `.0`. -/
structure DriftPriorityFeeResponse where
  entries : List DriftPriorityFeeLevels
deriving DecidableEq, Repr

/-- Modelled from the spec: the opaque error type of `SdkResult`
(`crate::types`, not under `src/`). -/
abbrev SdkError := String

/-- Modelled from the spec (§6): the external collaborator
`fetch_drift_priority_fee(endpoint, market_types, market_indexes)`.  The
embedding passes the collaborator as a function so each call site can be
analysed against an arbitrary remote behaviour. -/
abbrev FetchFn := String → List String → List Nat → Except SdkError DriftPriorityFeeResponse

/-- Modelled from the spec (§6): the documented default polling frequency
constant from `types.rs` (not under `src/`), e.g. 10000 ms. -/
def DEFAULT_PRIORITY_FEE_MAP_FREQUENCY_MS : Nat := 10000

/-- Modelled from the spec (§4.1) and the uses in `new`: the configuration
struct `PriorityFeeSubscriberMapConfig` from `types.rs` (not under `src/`). -/
structure PriorityFeeSubscriberMapConfig where
  frequency_ms : Option Nat
  drift_markets : Option (List DriftMarketInfo)
  drift_priority_fee_endpoint : String

/-- The subscriber state (struct `PriorityFeeSubscriberMap`, lines 17-23).
`tokio::time::Interval` is embedded as its period in milliseconds; only its
presence and its `take` are ever used by the source. -/
structure PriorityFeeSubscriberMap where
  frequency_ms : Nat
  interval_id : Option Nat
  drift_markets : Option (List DriftMarketInfo)
  drift_priority_fee_endpoint : Option String
  fees_map : HMap String (HMap Nat DriftPriorityFeeLevels)

namespace PriorityFeeSubscriberMap

/-- The cache built in `new` (lines 30-32): empty inner maps pre-declared
under the keys "perp" and "spot". -/
def initial_fees_map : HMap String (HMap Nat DriftPriorityFeeLevels) :=
  (HMap.empty.insert "perp" HMap.empty).insert "spot" HMap.empty

/-- `PriorityFeeSubscriberMap::new` (lines 26-41). -/
def new (config : PriorityFeeSubscriberMapConfig) : PriorityFeeSubscriberMap :=
  { frequency_ms := config.frequency_ms.getD DEFAULT_PRIORITY_FEE_MAP_FREQUENCY_MS
    interval_id := none
    drift_markets := config.drift_markets
    drift_priority_fee_endpoint := some config.drift_priority_fee_endpoint
    fees_map := initial_fees_map }

/-- One step of the `for_each` in `update_fees_map` (lines 44-48): if the
entry's category has a bucket (`get_mut` succeeds), insert the entry at its
full `u64` index; otherwise drop the entry. -/
def updateFeesStep (fees_map : HMap String (HMap Nat DriftPriorityFeeLevels))
    (fee : DriftPriorityFeeLevels) : HMap String (HMap Nat DriftPriorityFeeLevels) :=
  match fees_map fee.market_type with
  | some fee_level => fees_map.insert fee.market_type (fee_level.insert fee.market_index fee)
  | none => fees_map

/-- `PriorityFeeSubscriberMap::update_fees_map` (lines 43-49): fold the
response entries in order over the cache. -/
def update_fees_map (s : PriorityFeeSubscriberMap)
    (drift_priority_fee_res : DriftPriorityFeeResponse) : PriorityFeeSubscriberMap :=
  { s with fees_map := drift_priority_fee_res.entries.foldl updateFeesStep s.fees_map }

/-- `PriorityFeeSubscriberMap::update_market_type_and_index` (lines 110-112). -/
def update_market_type_and_index (s : PriorityFeeSubscriberMap)
    (drift_markets : List DriftMarketInfo) : PriorityFeeSubscriberMap :=
  { s with drift_markets := some drift_markets }

/-- `PriorityFeeSubscriberMap::get_priority_fees` (lines 114-124). -/
def get_priority_fees (s : PriorityFeeSubscriberMap) (market_type : String)
    (market_index : Nat) : Option DriftPriorityFeeLevels :=
  match s.fees_map market_type with
  | some level => level market_index
  | none => none

/-- Outcome of one `load` call: the `unwrap` of a missing endpoint aborts
(`panicked`), a failed fetch propagates via `?` with the state untouched
(`fetchErr` carries the state as the caller sees it afterwards), and success
returns the updated state. -/
inductive LoadResult where
  | panicked : LoadResult
  | fetchErr : SdkError → PriorityFeeSubscriberMap → LoadResult
  | ok : PriorityFeeSubscriberMap → LoadResult

/-- `PriorityFeeSubscriberMap::load` (lines 79-108), with the remote call
`fetch_drift_priority_fee` supplied as `fetch`.  When a watch list is present
it unwraps the endpoint, fetches with the parallel category/index arrays, and
on success rebuilds the watch list from the response, truncating each reported
`u64` index to `u16` (`as u16`, line 101).  The cache is not touched. -/
def load (fetch : FetchFn) (s : PriorityFeeSubscriberMap) : LoadResult :=
  match s.drift_markets with
  | some drift_markets =>
    match s.drift_priority_fee_endpoint with
    | none => LoadResult.panicked
    | some endpoint =>
      match fetch endpoint (drift_markets.map (fun market => market.market_type))
          (drift_markets.map (fun market => market.market_index)) with
      | Except.error e => LoadResult.fetchErr e s
      | Except.ok fees =>
        let market_info := fees.entries.map (fun level =>
          ({ market_type := level.market_type,
             market_index := level.market_index % 65536 } : DriftMarketInfo))
        LoadResult.ok (update_market_type_and_index s market_info)
  | none => LoadResult.ok s

/-- Outcome of one `subscribe` call.  In the `ok` case `spawned` records
whether a background polling task was launched and `did_load` whether a
synchronous `load` was performed (both are `false` on the early-return
no-op path, lines 54-56). -/
inductive SubscribeResult where
  | panicked : SubscribeResult
  | err : SdkError → PriorityFeeSubscriberMap → SubscribeResult
  | ok : PriorityFeeSubscriberMap → Bool → Bool → SubscribeResult

/-- `PriorityFeeSubscriberMap::subscribe` (lines 51-77): early-return when
`interval_id` is already set; otherwise one synchronous `load` (failure
propagates via `?` before any state change), then the interval is recorded
and the background task spawned. -/
def subscribe (fetch : FetchFn) (s : PriorityFeeSubscriberMap) : SubscribeResult :=
  if s.interval_id.isSome then SubscribeResult.ok s false false
  else
    match load fetch s with
    | LoadResult.panicked => SubscribeResult.panicked
    | LoadResult.fetchErr e s' => SubscribeResult.err e s'
    | LoadResult.ok s' =>
      SubscribeResult.ok { s' with interval_id := some s'.frequency_ms } true true

/-- First statement of the spawned background task (line 69):
`self_clone.lock().await.interval_id.take().unwrap()` — it removes the
interval from the shared state, returning it for local use by the loop. -/
def bg_loop_take (s : PriorityFeeSubscriberMap) : PriorityFeeSubscriberMap × Option Nat :=
  ({ s with interval_id := none }, s.interval_id)

end PriorityFeeSubscriberMap

/-- Lock-relevant events of the fetching path of `load`, in source order. -/
inductive LoadAction where
  | lock_acquire : LoadAction
  | await_remote_fetch : LoadAction
  | write_watch_list : LoadAction
  | lock_release : LoadAction
deriving DecidableEq, Repr

/-- Trace of `load` (lines 79-108) when a watch list is present: the mutex
guard is acquired at entry (line 80), the remote fetch is awaited at
lines 83-94 while the guard is still live, the watch-list update commits
(line 104), and the guard drops at the end of the function. -/
def load_actions : List LoadAction :=
  [LoadAction.lock_acquire, LoadAction.await_remote_fetch,
   LoadAction.write_watch_list, LoadAction.lock_release]

/-- Trace of the body of one background tick (lines 70-73): after the timer
fires the loop simply runs `load`, so the tick's lock behaviour is that of
`load_actions`. -/
def background_tick_actions : List LoadAction := load_actions

/-- Scans a trace with a held-flag and reports whether some remote fetch is
awaited while the lock is held. -/
def lock_held_across_fetch (actions : List LoadAction) : Bool :=
  (actions.foldl (fun st a =>
    match a with
    | LoadAction.lock_acquire => (true, st.2)
    | LoadAction.lock_release => (false, st.2)
    | LoadAction.await_remote_fetch => (st.1, st.2 || st.1)
    | LoadAction.write_watch_list => st) (false, false)).2

open PriorityFeeSubscriberMap in
/-- A caller-visible operation on the shared subscriber state, for reasoning
about arbitrary operation sequences.  `loadOp`/`subscribeOp` carry the remote
behaviour observed during that call; `bgTake` is the background task's initial
`interval_id.take()`. -/
inductive Op where
  | updateFees : DriftPriorityFeeResponse → Op
  | updateMarkets : List DriftMarketInfo → Op
  | loadOp : FetchFn → Op
  | subscribeOp : FetchFn → Op
  | bgTake : Op

open PriorityFeeSubscriberMap in
/-- State reached after one operation (a process abort leaves the state as
observed last). -/
def applyOp (s : PriorityFeeSubscriberMap) : Op → PriorityFeeSubscriberMap
  | Op.updateFees r => s.update_fees_map r
  | Op.updateMarkets dm => s.update_market_type_and_index dm
  | Op.loadOp fetch =>
    match load fetch s with
    | LoadResult.ok s' => s'
    | LoadResult.fetchErr _ s' => s'
    | LoadResult.panicked => s
  | Op.subscribeOp fetch =>
    match subscribe fetch s with
    | SubscribeResult.ok s' _ _ => s'
    | SubscribeResult.err _ s' => s'
    | SubscribeResult.panicked => s
  | Op.bgTake => (s.bg_loop_take).1

/-- State reached after a sequence of operations. -/
def runOps (s : PriorityFeeSubscriberMap) (ops : List Op) : PriorityFeeSubscriberMap :=
  ops.foldl applyOp s

/-- The cache invariant of spec §3: every populated outer-map key is one of
the statically known categories. -/
def known_categories_only (s : PriorityFeeSubscriberMap) : Prop :=
  ∀ cat : String, (s.fees_map cat).isSome ↔ (cat = "perp" ∨ cat = "spot")

/-- Last response entry for a given market index (later entries win, as later
`HashMap::insert` calls overwrite earlier ones). -/
def lastEntryFor (fees : List DriftPriorityFeeLevels) (idx : Nat) : Option DriftPriorityFeeLevels :=
  fees.foldl (fun acc fee => if fee.market_index = idx then some fee else acc) none

/-- Folding a list of entries into one inner (per-category) map. -/
def applyLevels (fees : List DriftPriorityFeeLevels)
    (fl : HMap Nat DriftPriorityFeeLevels) : HMap Nat DriftPriorityFeeLevels :=
  fees.foldl (fun fl fee => fl.insert fee.market_index fee) fl

section Examples

open PriorityFeeSubscriberMap

/-- Concrete fee record for the "perp" market 0, median 100 (spec §8.6). -/
def exLevels : DriftPriorityFeeLevels :=
  { market_type := "perp", market_index := 0, low := 10, median := 100, high := 500 }

/-- Concrete response holding just `exLevels`. -/
def exResp : DriftPriorityFeeResponse := ⟨[exLevels]⟩

/-- Concrete configuration watching the "perp" market 0. -/
def exCfg : PriorityFeeSubscriberMapConfig :=
  { frequency_ms := none
    drift_markets := some [⟨"perp", 0⟩]
    drift_priority_fee_endpoint := "https://fees.example" }

/-- Remote behaviour that always succeeds with `exResp`. -/
def exFetch : FetchFn := fun _ _ _ => Except.ok exResp

/-- Remote behaviour that always fails. -/
def exFetchFail : FetchFn := fun _ _ _ => Except.error "network down"

/-- Fee record whose reported `u64` index 65536 does not fit in a `u16`. -/
def exLevelsBig : DriftPriorityFeeLevels :=
  { market_type := "perp", market_index := 65536, low := 10, median := 100, high := 500 }

/-- Response holding just `exLevelsBig`. -/
def exRespBig : DriftPriorityFeeResponse := ⟨[exLevelsBig]⟩

/-- Remote behaviour that always succeeds with `exRespBig`. -/
def exFetchBig : FetchFn := fun _ _ _ => Except.ok exRespBig

/-- The state after a first successful `subscribe` on `new exCfg`: watch list
rebuilt from the response and the interval recorded. -/
def exPolling : PriorityFeeSubscriberMap :=
  { update_market_type_and_index (new exCfg) [⟨"perp", 0⟩] with
    interval_id := some DEFAULT_PRIORITY_FEE_MAP_FREQUENCY_MS }

end Examples

open PriorityFeeSubscriberMap

theorem lastEntryFor_foldl_acc (fees : List DriftPriorityFeeLevels) (idx : Nat)
    (a : Option DriftPriorityFeeLevels) :
    fees.foldl (fun acc fee => if fee.market_index = idx then some fee else acc) a
      = match lastEntryFor fees idx with
        | some g => some g
        | none => a := by
  induction fees generalizing a with
  | nil => simp [lastEntryFor]
  | cons f fs ih =>
    simp only [lastEntryFor, List.foldl_cons]
    rw [ih, ih (if f.market_index = idx then some f else none)]
    cases hl : lastEntryFor fs idx <;> by_cases hc : f.market_index = idx <;> simp [hl, hc]

theorem applyLevels_apply (fees : List DriftPriorityFeeLevels)
    (fl : HMap Nat DriftPriorityFeeLevels) (idx : Nat) :
    applyLevels fees fl idx
      = match lastEntryFor fees idx with
        | some g => some g
        | none => fl idx := by
  induction fees generalizing fl with
  | nil => simp [applyLevels, lastEntryFor]
  | cons f fs ih =>
    simp only [applyLevels, List.foldl_cons]
    rw [show (List.foldl (fun fl fee => fl.insert fee.market_index fee)
        (fl.insert f.market_index f) fs) = applyLevels fs (fl.insert f.market_index f) from rfl]
    rw [ih]
    have hcons : lastEntryFor (f :: fs) idx
        = match lastEntryFor fs idx with
          | some g => some g
          | none => if f.market_index = idx then some f else none := by
      have h0 : lastEntryFor (f :: fs) idx
          = List.foldl (fun acc fee => if fee.market_index = idx then some fee else acc)
              (if f.market_index = idx then some f else none) fs := rfl
      rw [h0, lastEntryFor_foldl_acc]
    rw [hcons]
    cases hl : lastEntryFor fs idx with
    | some g => simp [hl]
    | none =>
      by_cases hc : f.market_index = idx
      · simp [hl, hc, HMap.insert]
      · have hc' : ¬ idx = f.market_index := fun h => hc h.symm
        simp [hl, hc, hc', HMap.insert]

theorem foldl_updateFeesStep_apply (fees : List DriftPriorityFeeLevels)
    (m : HMap String (HMap Nat DriftPriorityFeeLevels)) (cat : String) :
    (fees.foldl updateFeesStep m) cat
      = Option.map (fun fl => applyLevels (fees.filter (fun fee => fee.market_type == cat)) fl)
          (m cat) := by
  induction fees generalizing m with
  | nil => cases h : m cat <;> simp [h, applyLevels]
  | cons f fs ih =>
    simp only [List.foldl_cons]
    rw [ih]
    cases hm : m f.market_type with
    | none =>
      simp only [updateFeesStep, hm]
      by_cases hc : f.market_type = cat
      · have hcat : m cat = none := by rw [← hc]; exact hm
        simp [hcat]
      · have hne : (f.market_type == cat) = false := by simp [hc]
        simp [List.filter_cons, hne]
    | some fl0 =>
      simp only [updateFeesStep, hm]
      by_cases hc : f.market_type = cat
      · have hcat : m cat = some fl0 := by rw [← hc]; exact hm
        have hins : (HMap.insert m f.market_type (fl0.insert f.market_index f)) cat
            = some (fl0.insert f.market_index f) := by
          simp [HMap.insert, hc]
        have hfil : (f :: fs).filter (fun fee => fee.market_type == cat)
            = f :: fs.filter (fun fee => fee.market_type == cat) := by
          simp [List.filter_cons, hc]
        rw [hins, hcat, hfil]
        simp [applyLevels]
      · have hins : (HMap.insert m f.market_type (fl0.insert f.market_index f)) cat
            = m cat := by
          simp [HMap.insert, Ne.symm hc]
        have hne : (f.market_type == cat) = false := by simp [hc]
        rw [hins]
        simp [List.filter_cons, hne]

theorem foldl_updateFeesStep_isSome (fees : List DriftPriorityFeeLevels)
    (m : HMap String (HMap Nat DriftPriorityFeeLevels)) (cat : String) :
    ((fees.foldl updateFeesStep m) cat).isSome = (m cat).isSome := by
  rw [foldl_updateFeesStep_apply]
  cases m cat <;> simp

theorem applyLevels_idem (fees : List DriftPriorityFeeLevels)
    (fl : HMap Nat DriftPriorityFeeLevels) :
    applyLevels fees (applyLevels fees fl) = applyLevels fees fl := by
  funext idx
  rw [applyLevels_apply, applyLevels_apply]
  cases hl : lastEntryFor fees idx <;> simp

/-- C5: applying the same response twice with `update_fees_map` yields the
same cache state as applying it once — the mutation path is idempotent. -/
theorem update_fees_map_idempotent (s : PriorityFeeSubscriberMap)
    (r : DriftPriorityFeeResponse) :
    (s.update_fees_map r).update_fees_map r = s.update_fees_map r := by
  have hmap : r.entries.foldl updateFeesStep (r.entries.foldl updateFeesStep s.fees_map)
      = r.entries.foldl updateFeesStep s.fees_map := by
    funext cat
    rw [foldl_updateFeesStep_apply, foldl_updateFeesStep_apply]
    cases hm : s.fees_map cat with
    | none => simp
    | some fl => simp [applyLevels_idem]
  cases s with
  | mk freq iid dm ep fm =>
    simp only [update_fees_map]
    congr 1

theorem load_cases (fetch : FetchFn) (s : PriorityFeeSubscriberMap) :
    load fetch s = LoadResult.panicked
    ∨ (∃ e, load fetch s = LoadResult.fetchErr e s)
    ∨ (∃ s', load fetch s = LoadResult.ok s'
        ∧ s'.fees_map = s.fees_map
        ∧ s'.drift_priority_fee_endpoint = s.drift_priority_fee_endpoint
        ∧ s'.interval_id = s.interval_id
        ∧ s'.frequency_ms = s.frequency_ms) := by
  cases hdm : s.drift_markets with
  | none =>
    refine Or.inr (Or.inr ⟨s, ?_, rfl, rfl, rfl, rfl⟩)
    simp [load, hdm]
  | some dm =>
    cases hep : s.drift_priority_fee_endpoint with
    | none =>
      refine Or.inl ?_
      simp [load, hdm, hep]
    | some ep =>
      cases hf : fetch ep (dm.map fun market => market.market_type)
          (dm.map fun market => market.market_index) with
      | error e =>
        refine Or.inr (Or.inl ⟨e, ?_⟩)
        simp [load, hdm, hep, hf]
      | ok fees =>
        refine Or.inr (Or.inr ⟨update_market_type_and_index s (fees.entries.map (fun level =>
          ({ market_type := level.market_type,
             market_index := level.market_index % 65536 } : DriftMarketInfo))),
          ?_, rfl, hep, rfl, rfl⟩)
        simp [load, hdm, hep, hf]

theorem load_ne_panicked (fetch : FetchFn) (s : PriorityFeeSubscriberMap) (ep : String)
    (hep : s.drift_priority_fee_endpoint = some ep) :
    load fetch s ≠ LoadResult.panicked := by
  cases hdm : s.drift_markets with
  | none => simp [load, hdm]
  | some dm =>
    cases hf : fetch ep (dm.map fun market => market.market_type)
        (dm.map fun market => market.market_index) with
    | error e => simp [load, hdm, hep, hf]
    | ok fees => simp [load, hdm, hep, hf]

theorem applyOp_endpoint (s : PriorityFeeSubscriberMap) (op : Op) :
    (applyOp s op).drift_priority_fee_endpoint = s.drift_priority_fee_endpoint := by
  cases op with
  | updateFees r => rfl
  | updateMarkets dm => rfl
  | bgTake => rfl
  | loadOp fetch =>
    rcases load_cases fetch s with hp | ⟨e, he⟩ | ⟨s', hok, _, hend, _, _⟩
    · simp [applyOp, hp]
    · simp [applyOp, he]
    · simp [applyOp, hok, hend]
  | subscribeOp fetch =>
    by_cases hi : s.interval_id.isSome
    · simp [applyOp, subscribe, hi]
    · rcases load_cases fetch s with hp | ⟨e, he⟩ | ⟨s', hok, _, hend, _, _⟩
      · simp [applyOp, subscribe, hi, hp]
      · simp [applyOp, subscribe, hi, he]
      · simp [applyOp, subscribe, hi, hok, hend]

theorem applyOp_fees_map_cases (s : PriorityFeeSubscriberMap) (op : Op) :
    (applyOp s op).fees_map = s.fees_map
    ∨ ∃ r : DriftPriorityFeeResponse,
        (applyOp s op).fees_map = r.entries.foldl updateFeesStep s.fees_map := by
  cases op with
  | updateFees r => exact Or.inr ⟨r, rfl⟩
  | updateMarkets dm => exact Or.inl rfl
  | bgTake => exact Or.inl rfl
  | loadOp fetch =>
    rcases load_cases fetch s with hp | ⟨e, he⟩ | ⟨s', hok, hfm, _, _, _⟩
    · exact Or.inl (by simp [applyOp, hp])
    · exact Or.inl (by simp [applyOp, he])
    · exact Or.inl (by simp [applyOp, hok, hfm])
  | subscribeOp fetch =>
    by_cases hi : s.interval_id.isSome
    · exact Or.inl (by simp [applyOp, subscribe, hi])
    · rcases load_cases fetch s with hp | ⟨e, he⟩ | ⟨s', hok, hfm, _, _, _⟩
      · exact Or.inl (by simp [applyOp, subscribe, hi, hp])
      · exact Or.inl (by simp [applyOp, subscribe, hi, he])
      · exact Or.inl (by simp [applyOp, subscribe, hi, hok, hfm])

theorem runOps_cons (s : PriorityFeeSubscriberMap) (op : Op) (ops : List Op) :
    runOps s (op :: ops) = runOps (applyOp s op) ops := rfl

theorem runOps_endpoint (ops : List Op) (s : PriorityFeeSubscriberMap) :
    (runOps s ops).drift_priority_fee_endpoint = s.drift_priority_fee_endpoint := by
  induction ops generalizing s with
  | nil => rfl
  | cons op ops ih => rw [runOps_cons, ih, applyOp_endpoint]

theorem new_known (cfg : PriorityFeeSubscriberMapConfig) :
    known_categories_only (new cfg) := by
  intro cat
  by_cases h1 : cat = "spot"
  · simp [new, initial_fees_map, HMap.insert, HMap.empty, h1]
  · by_cases h2 : cat = "perp" <;>
      simp [new, initial_fees_map, HMap.insert, HMap.empty, h1, h2]

theorem known_preserved (s : PriorityFeeSubscriberMap) (op : Op)
    (h : known_categories_only s) : known_categories_only (applyOp s op) := by
  intro cat
  rcases applyOp_fees_map_cases s op with hf | ⟨r, hf⟩
  · rw [hf]; exact h cat
  · rw [hf, foldl_updateFeesStep_isSome]; exact h cat

theorem runOps_known (ops : List Op) (s : PriorityFeeSubscriberMap)
    (h : known_categories_only s) : known_categories_only (runOps s ops) := by
  induction ops generalizing s with
  | nil => exact h
  | cons op ops ih => rw [runOps_cons]; exact ih _ (known_preserved s op h)

theorem get_none_of_unknown (s : PriorityFeeSubscriberMap)
    (h : known_categories_only s) (cat : String) (idx : Nat)
    (h1 : cat ≠ "perp") (h2 : cat ≠ "spot") :
    s.get_priority_fees cat idx = none := by
  have hn : s.fees_map cat = none := by
    cases hm : s.fees_map cat with
    | none => rfl
    | some fl =>
      have := (h cat).1 (by rw [hm]; rfl)
      rcases this with hp | hs
      · exact absurd hp h1
      · exact absurd hs h2
  simp [get_priority_fees, hn]

theorem filter_known_absorb (l : List DriftPriorityFeeLevels) (cat : String)
    (hcat : cat = "perp" ∨ cat = "spot") :
    (l.filter (fun fee => fee.market_type == "perp" || fee.market_type == "spot")).filter
        (fun fee => fee.market_type == cat)
      = l.filter (fun fee => fee.market_type == cat) := by
  induction l with
  | nil => rfl
  | cons f fs ih =>
    by_cases hc : (f.market_type == cat) = true
    · have hfk : (f.market_type == "perp" || f.market_type == "spot") = true := by
        have hceq : f.market_type = cat := by simpa using hc
        rcases hcat with h | h <;> rw [hceq, h] <;> simp
      simp [List.filter_cons, hfk, hc, ih]
    · by_cases hk : (f.market_type == "perp" || f.market_type == "spot") = true
      · simp [List.filter_cons, hk, hc, ih]
      · simp [List.filter_cons, hk, hc, ih]

theorem update_drops_unknown (s : PriorityFeeSubscriberMap)
    (r : DriftPriorityFeeResponse) (h : known_categories_only s) :
    s.update_fees_map r
      = s.update_fees_map
          ⟨r.entries.filter (fun fee => fee.market_type == "perp" || fee.market_type == "spot")⟩ := by
  have hmap : r.entries.foldl updateFeesStep s.fees_map
      = (r.entries.filter
          (fun fee => fee.market_type == "perp" || fee.market_type == "spot")).foldl
            updateFeesStep s.fees_map := by
    funext cat
    rw [foldl_updateFeesStep_apply, foldl_updateFeesStep_apply]
    cases hm : s.fees_map cat with
    | none => simp
    | some fl =>
      have hcat : cat = "perp" ∨ cat = "spot" := (h cat).1 (by rw [hm]; rfl)
      simp only [Option.map_some']
      rw [filter_known_absorb r.entries cat hcat]
  cases s with
  | mk freq iid dm ep fm =>
    simp only [update_fees_map]
    congr 1

/-- C1: the claim says a successful `load` updates the cache from the fetched
response so that `get_priority_fees` returns the fetched levels.  The code
does not: on the concrete success below, `load` returns success after only
replacing the watch list, and `get_priority_fees "perp" 0` is still `none`
even though the response carried levels for ("perp", 0). -/
theorem load_success_does_not_update_cache :
    load exFetch (new exCfg)
      = LoadResult.ok ((new exCfg).update_market_type_and_index [⟨"perp", 0⟩])
    ∧ ((new exCfg).update_market_type_and_index [⟨"perp", 0⟩]).get_priority_fees "perp" 0
        = none := ⟨rfl, rfl⟩

/-- C2: the claim says a second `subscribe` after a successful first one is a
no-op.  After the first `subscribe` succeeds, the spawned background task's
first statement removes `interval_id` from the shared state (line 69), after
which a second `subscribe` sees no interval, performs another synchronous
load and spawns another polling loop (the final `true true` flags). -/
theorem second_subscribe_after_bg_take_is_not_noop :
    subscribe exFetch (new exCfg) = SubscribeResult.ok exPolling true true
    ∧ (exPolling.bg_loop_take).1.interval_id = none
    ∧ subscribe exFetch (exPolling.bg_loop_take).1 = SubscribeResult.ok exPolling true true :=
  ⟨rfl, rfl, rfl⟩

/-- C3: when the remote fetch fails, `load` propagates exactly that failure
and returns with the subscriber state unchanged (the `fetchErr` result
carries the original state `s`: neither the cache nor the watch list was
touched before the early return). -/
theorem load_fetch_failure_propagates_state_unchanged (fetch : FetchFn)
    (s : PriorityFeeSubscriberMap) (dm : List DriftMarketInfo) (endpoint : String)
    (e : SdkError)
    (hdm : s.drift_markets = some dm)
    (hep : s.drift_priority_fee_endpoint = some endpoint)
    (hfe : fetch endpoint (dm.map fun market => market.market_type)
        (dm.map fun market => market.market_index) = Except.error e) :
    load fetch s = LoadResult.fetchErr e s := by
  simp [load, hdm, hep, hfe]

/-- Witness for C3 at a concrete subscriber and failing remote call. -/
theorem load_fetch_failure_witness :
    load exFetchFail (new exCfg) = LoadResult.fetchErr "network down" (new exCfg) :=
  load_fetch_failure_propagates_state_unchanged exFetchFail (new exCfg) [⟨"perp", 0⟩]
    "https://fees.example" "network down" rfl rfl rfl

/-- C4: if the initial synchronous `load` inside `subscribe` fails, `subscribe`
returns that failure with the state unchanged: `interval_id` is still `none`
(the object stays Idle), no background task is spawned (`err` is not the
spawning `ok` branch), and a later `subscribe` on the returned state retries
from scratch. -/
theorem subscribe_initial_load_failure_keeps_idle (fetch : FetchFn)
    (s : PriorityFeeSubscriberMap) (dm : List DriftMarketInfo) (endpoint : String)
    (e : SdkError)
    (hidle : s.interval_id = none)
    (hdm : s.drift_markets = some dm)
    (hep : s.drift_priority_fee_endpoint = some endpoint)
    (hfe : fetch endpoint (dm.map fun market => market.market_type)
        (dm.map fun market => market.market_index) = Except.error e) :
    subscribe fetch s = SubscribeResult.err e s := by
  simp [subscribe, load, hidle, hdm, hep, hfe]

/-- Witness for C4 at a concrete subscriber and failing remote call. -/
theorem subscribe_initial_load_failure_witness :
    subscribe exFetchFail (new exCfg) = SubscribeResult.err "network down" (new exCfg) :=
  subscribe_initial_load_failure_keeps_idle exFetchFail (new exCfg) [⟨"perp", 0⟩]
    "https://fees.example" "network down" rfl rfl rfl rfl

/-- C6: starting from `new`, after any sequence of operations the cache's
outer map is populated exactly at the statically known categories, a lookup
under any other category is not-found, and `update_fees_map` gives the same
state as updating with the response restricted to its known-category entries
(entries of other categories are dropped silently). -/
theorem cache_outer_keys_always_known (cfg : PriorityFeeSubscriberMapConfig)
    (ops : List Op) :
    known_categories_only (runOps (new cfg) ops)
    ∧ (∀ (cat : String) (idx : Nat), cat ≠ "perp" → cat ≠ "spot" →
        (runOps (new cfg) ops).get_priority_fees cat idx = none)
    ∧ (∀ r : DriftPriorityFeeResponse,
        (runOps (new cfg) ops).update_fees_map r
          = (runOps (new cfg) ops).update_fees_map
              ⟨r.entries.filter
                (fun fee => fee.market_type == "perp" || fee.market_type == "spot")⟩) := by
  have hknown := runOps_known ops (new cfg) (new_known cfg)
  exact ⟨hknown,
    fun cat idx h1 h2 => get_none_of_unknown _ hknown cat idx h1 h2,
    fun r => update_drops_unknown _ r hknown⟩

/-- Witness for C6: after seeding the cache through one update, a lookup
under the unknown category "other" is not-found. -/
theorem cache_outer_keys_witness :
    (runOps (new exCfg) [Op.updateFees exResp]).get_priority_fees "other" 3 = none :=
  (cache_outer_keys_always_known exCfg [Op.updateFees exResp]).2.1 "other" 3
    (by decide) (by decide)

/-- C7 counterexample: the watch list stored by a successful `load` does not
equal the reported (category, index) pairs of the response.  With a response
reporting ("perp", 65536), the stored pair is ("perp", 0): the claim's
equality fails at this input. -/
theorem watch_list_not_exact_response_pairs :
    load exFetchBig (new exCfg)
      = LoadResult.ok ((new exCfg).update_market_type_and_index [⟨"perp", 0⟩])
    ∧ ((new exCfg).update_market_type_and_index [⟨"perp", 0⟩]).drift_markets
        ≠ some [⟨"perp", 65536⟩] := ⟨rfl, by decide⟩

/-- C7 (amended): after a successful `load`, the stored watch list equals the
response's (category, index mod 2^16) pairs, in response order, wholesale
replacing the previous list regardless of its contents. -/
theorem watch_list_wholesale_replaced (fetch : FetchFn) (s : PriorityFeeSubscriberMap)
    (dm : List DriftMarketInfo) (endpoint : String) (resp : DriftPriorityFeeResponse)
    (s' : PriorityFeeSubscriberMap)
    (hdm : s.drift_markets = some dm)
    (hep : s.drift_priority_fee_endpoint = some endpoint)
    (hfe : fetch endpoint (dm.map fun market => market.market_type)
        (dm.map fun market => market.market_index) = Except.ok resp)
    (hload : load fetch s = LoadResult.ok s') :
    s'.drift_markets = some (resp.entries.map (fun level =>
      ({ market_type := level.market_type,
         market_index := level.market_index % 65536 } : DriftMarketInfo))) := by
  simp only [load, hdm, hep, hfe] at hload
  injection hload with h
  rw [← h]
  rfl

/-- Witness for the amended C7 at a concrete subscriber and response. -/
theorem watch_list_wholesale_replaced_witness :
    ((new exCfg).update_market_type_and_index [⟨"perp", 0⟩]).drift_markets
      = some (exRespBig.entries.map (fun level =>
          ({ market_type := level.market_type,
             market_index := level.market_index % 65536 } : DriftMarketInfo))) :=
  watch_list_wholesale_replaced exFetchBig (new exCfg) [⟨"perp", 0⟩]
    "https://fees.example" exRespBig
    ((new exCfg).update_market_type_and_index [⟨"perp", 0⟩]) rfl rfl rfl rfl

/-- C8: the claim says a background tick releases the lock before awaiting the
remote fetch.  In the source, `load` acquires the mutex guard at entry and the
guard is still live when `fetch_drift_priority_fee(...)` is awaited, on every
tick of the background loop: the trace of one tick holds the lock across the
fetch. -/
theorem background_tick_holds_lock_across_fetch :
    lock_held_across_fetch background_tick_actions = true := rfl

/-- C9: from `new`, the endpoint field is `some` of the configured endpoint
after any sequence of operations, and `load` never reaches the aborting
`unwrap` of a missing endpoint on any such state. -/
theorem endpoint_always_present_load_never_aborts (cfg : PriorityFeeSubscriberMapConfig)
    (ops : List Op) :
    (runOps (new cfg) ops).drift_priority_fee_endpoint = some cfg.drift_priority_fee_endpoint
    ∧ ∀ fetch : FetchFn, load fetch (runOps (new cfg) ops) ≠ LoadResult.panicked := by
  have hend : (runOps (new cfg) ops).drift_priority_fee_endpoint
      = some cfg.drift_priority_fee_endpoint := by
    rw [runOps_endpoint]
    rfl
  exact ⟨hend, fun fetch => load_ne_panicked fetch _ _ hend⟩

/-- C10: `load` narrows each reported `u64` market index to `u16` when
rebuilding the watch list (stored index = reported index mod 2^16), while the
cache written by `update_fees_map` is keyed by the full `u64` index. -/
theorem load_truncates_watch_index_but_cache_full_width :
    (∀ (fetch : FetchFn) (s : PriorityFeeSubscriberMap) (dm : List DriftMarketInfo)
        (endpoint : String) (resp : DriftPriorityFeeResponse),
        s.drift_markets = some dm →
        s.drift_priority_fee_endpoint = some endpoint →
        fetch endpoint (dm.map fun market => market.market_type)
            (dm.map fun market => market.market_index) = Except.ok resp →
        load fetch s = LoadResult.ok (s.update_market_type_and_index
          (resp.entries.map (fun level =>
            ({ market_type := level.market_type,
               market_index := level.market_index % 65536 } : DriftMarketInfo)))))
    ∧ (∀ (s : PriorityFeeSubscriberMap) (fee : DriftPriorityFeeLevels)
        (fl : HMap Nat DriftPriorityFeeLevels),
        s.fees_map fee.market_type = some fl →
        (s.update_fees_map ⟨[fee]⟩).get_priority_fees fee.market_type fee.market_index
          = some fee) := by
  constructor
  · intro fetch s dm endpoint resp hdm hep hfe
    simp [load, hdm, hep, hfe]
  · intro s fee fl hfl
    simp [update_fees_map, updateFeesStep, get_priority_fees, HMap.insert, hfl]

/-- Witness for C10: a response entry reporting index 65536 is stored in the
watch list at index 0, while the cache lookup succeeds at the full index
65536. -/
theorem load_truncates_watch_index_witness :
    load exFetchBig (new exCfg)
      = LoadResult.ok ((new exCfg).update_market_type_and_index
          (exRespBig.entries.map (fun level =>
            ({ market_type := level.market_type,
               market_index := level.market_index % 65536 } : DriftMarketInfo))))
    ∧ ((new exCfg).update_fees_map ⟨[exLevelsBig]⟩).get_priority_fees "perp" 65536
        = some exLevelsBig :=
  ⟨load_truncates_watch_index_but_cache_full_width.1 exFetchBig (new exCfg) [⟨"perp", 0⟩]
      "https://fees.example" exRespBig rfl rfl rfl,
    load_truncates_watch_index_but_cache_full_width.2 (new exCfg) exLevelsBig
      HMap.empty rfl⟩

/-- Witness for C9: after a concrete load, the endpoint is still present and a
further `load` with a failing remote does not abort. -/
theorem endpoint_always_present_witness :
    (runOps (new exCfg) [Op.loadOp exFetch]).drift_priority_fee_endpoint
      = some "https://fees.example"
    ∧ load exFetchFail (runOps (new exCfg) [Op.loadOp exFetch]) ≠ LoadResult.panicked :=
  ⟨(endpoint_always_present_load_never_aborts exCfg [Op.loadOp exFetch]).1,
   (endpoint_always_present_load_never_aborts exCfg [Op.loadOp exFetch]).2 exFetchFail⟩
